import Mathlib

/-!
# The `@media` whitespace probes

A shallow embedding of the three scripts

* `test-media-query.js`
* `test-media-query-assembler.js`
* `test-media-query-comprehensive.js`

Each script hands a fixture to an external `compile`, prints the CSS it got
back and greps it with `String.prototype.includes`.  The compiler is not part
of the scripts, so it enters every definition as a parameter; the console is
modelled as the list of events a script appends to it.
-/

set_option maxRecDepth 8000

namespace MediaQuery

/-! ## JavaScript strings -/

/-- Search loop of `String.prototype.includes`: does `pat` start at some
position of `s`?  Positions are tried from left to right, the position at the
very end included (the empty pattern is found in the empty string). -/
def includesChars : List Char → List Char → Bool
  | [], pat => pat.isPrefixOf []
  | c :: cs, pat => pat.isPrefixOf (c :: cs) || includesChars cs pat

/-- The call `s.includes(pat)` on two strings.  Every search pattern of the
scripts is ASCII, so searching by character agrees with the search by UTF-16
code unit that JavaScript performs. -/
def includes (s pat : String) : Bool :=
  includesChars s.data pat.data

/-- The string `pat` occurs in `s`: some text, then `pat`, then some text. -/
def Occurs (pat s : String) : Prop :=
  ∃ before after : String, s = before ++ pat ++ after

/-! ## What the compiler hands back -/

/-- Modelled from the spec: the shape of `result.css`, which the external
compiler decides.  Section 6 of the specification gives the printed CSS either
as a string or as a `{code, map}` pair; the comprehensive script also expects
the field to be missing (`result.css ? ... : ...`). -/
inductive CssValue where
  | absent
  | text (css : String)
  | pair (code : String) (map : Option String)

/-- The object `compile` returns; only its `css` field is read. -/
structure CompileResult where
  css : CssValue

/-- A value arriving in a `catch` clause: either the error `compile` threw,
with its message, or the `TypeError` the engine raises when a property of
`undefined` is read or a missing method is called; `expr` names the expression
at which it is raised, the wording of the engine's message is left open. -/
inductive JsError where
  | thrown (message : String)
  | typeError (expr : String)
  deriving DecidableEq

/-- The options object passed to `compile`; a field a script leaves out is
`none`. -/
structure Options where
  cssHash : Unit → String
  dev : Option Bool
  inject_styles : Option Bool

/-- The imported `compile`: it returns a result or throws. -/
abbrev Compile := String → Options → Except JsError CompileResult

/-! ## Console output -/

/-- The three branches of the `if / else if / else` chain of each script. -/
inductive Verdict where
  | bug
  | preserved
  | notFound
  deriving DecidableEq, Repr

/-- One thing a script does to the outside world: a console line (`logCss`
is `console.log(result.css)`, whatever the value is), the verdict line of the
`if` chain, the error line of a catch clause, or `process.exit`. -/
inductive Event where
  | log (text : String)
  | logCss (value : CssValue)
  | logOptions (label : String) (options : Options)
  | verdict (v : Verdict)
  | failure (e : JsError)
  | exit (code : Nat)

/-- The verdict line or the error line of a run, as opposed to the banner and
echo lines around it. -/
inductive Outcome where
  | verdict (v : Verdict)
  | failure (e : JsError)
  deriving DecidableEq

/-- Keeps the verdict and error events of a console trace, in order. -/
def outcomes : List Event → List Outcome
  | [] => []
  | .verdict v :: es => .verdict v :: outcomes es
  | .failure e :: es => .failure e :: outcomes es
  | _ :: es => outcomes es

/-! ## `test-media-query.js` -/

namespace Basic

/-- The template literal `source`, lines 3-13. -/
def source : String :=
  "\n<div>hello</div>\n\n<style>\n\t@media only screen and (min-width: 400px) \x7b\n\t\tdiv \x7b\n\t\t\tcolor: red;\n\t\t\x7d\n\t\x7d\n</style>\n"

/-- The text between `<style>` and `</style>` in `source`. -/
def styleBlock : String :=
  "\n\t@media only screen and (min-width: 400px) \x7b\n\t\tdiv \x7b\n\t\t\tcolor: red;\n\t\t\x7d\n\t\x7d\n"

/-- The options literal, lines 16-19. -/
def options : Options :=
  { cssHash := fun _ => "svelte-xyz", dev := some false, inject_styles := none }

/-- The `if / else if / else` chain of lines 26-32 on the string
`result.css.code`. -/
def check (code : String) : Verdict :=
  if includes code "@mediaonly" then .bug
  else if includes code "@media only" then .preserved
  else .notFound

/-- The `try` block after `compile` returned, lines 21-32.  Reading
`result.css.code` throws when `result.css` is missing; on a string it yields
`undefined`, which is printed, and the call of `includes` on it throws. -/
def body (result : CompileResult) : List Event :=
  match result.css with
  | .absent =>
      [.log "=== Compiled CSS ===", .failure (.typeError "result.css.code")]
  | .text _ =>
      [.log "=== Compiled CSS ===", .log "undefined", .log "===================",
       .failure (.typeError "result.css.code.includes")]
  | .pair code _ =>
      [.log "=== Compiled CSS ===", .log code, .log "===================",
       .verdict (check code)]

/-- The whole script: `try { compile ... } catch (error) { console.error }`. -/
def run (compile : Compile) : List Event :=
  match compile source options with
  | .error e => [.failure e]
  | .ok result => body result

end Basic

/-! ## `test-media-query-assembler.js` -/

namespace Assembler

/-- The template literal `source`, lines 4-14. -/
def source : String :=
  "\n<div>hello</div>\n\n<style>\n    @media only screen and (min-width: 400px) \x7b\n        div \x7b\n            color: red;\n        \x7d\n    \x7d\n</style>\n"

/-- The text between `<style>` and `</style>` in `source`. -/
def styleBlock : String :=
  "\n    @media only screen and (min-width: 400px) \x7b\n        div \x7b\n            color: red;\n        \x7d\n    \x7d\n"

/-- The options literal, lines 19-21. -/
def options : Options :=
  { cssHash := fun _ => "svelte-xyz", dev := none, inject_styles := none }

/-- The `if / else if / else` chain of lines 28-35 on the string
`result.css`. -/
def check (css : String) : Verdict :=
  if includes css "@mediaonly" then .bug
  else if includes css "@media only" then .preserved
  else .notFound

/-- The catch clause, lines 37-40. -/
def onError (e : JsError) : List Event :=
  [.failure e, .exit 1]

/-- The `try` block after `compile` returned, lines 23-35.  `result.css` is
printed whatever it is; `result.css.includes` is a method only when
`result.css` is a string. -/
def body (result : CompileResult) : List Event :=
  match result.css with
  | .text css =>
      [.log "Generated CSS:", .logCss result.css, .log "\n", .verdict (check css)]
  | _ =>
      [.log "Generated CSS:", .logCss result.css, .log "\n"]
        ++ onError (.typeError "result.css.includes")

/-- The whole script, line 16 onwards. -/
def run (compile : Compile) : List Event :=
  .log "Testing @media query compilation...\n" ::
    match compile source options with
    | .error e => onError e
    | .ok result => body result

end Assembler

/-! ## `test-media-query-comprehensive.js` -/

namespace Comprehensive

/-- An element of the array `tests`. -/
structure Test where
  name : String
  source : String
  options : Options

/-- The fixture source shared by `tests[0]`, `tests[1]` and `tests[2]`. -/
def mediaSource : String :=
  "<div>hello</div>\n<style>\n\t@media only screen and (min-width: 400px) \x7b\n\t\tdiv \x7b\n\t\t\tcolor: red;\n\t\t\x7d\n\t\x7d\n</style>"

/-- The fixture source of `tests[3]`. -/
def webkitSource : String :=
  "<div>hello</div>\n<style>\n\t@-webkit-media only screen and (min-width: 400px) \x7b\n\t\tdiv \x7b\n\t\t\tcolor: red;\n\t\t\x7d\n\t\x7d\n</style>"

/-- The fixture source of `tests[4]`. -/
def multiSource : String :=
  "<div>hello</div>\n<style>\n\tdiv \x7b\n\t\tcolor: blue;\n\t\x7d\n\t@media only screen and (min-width: 400px) \x7b\n\t\tdiv \x7b\n\t\t\tcolor: red;\n\t\t\x7d\n\t\x7d\n\t@media print \x7b\n\t\tdiv \x7b\n\t\t\tcolor: black;\n\t\t\x7d\n\t\x7d\n</style>"

/-- The element `tests[0]`, lines 4-15. -/
def basicTest : Test :=
  { name := "Basic @media with words", source := mediaSource,
    options := { cssHash := fun _ => "svelte-xyz", dev := some false, inject_styles := none } }

/-- The element `tests[1]`, lines 16-27. -/
def injectTest : Test :=
  { name := "With inject_styles", source := mediaSource,
    options := { cssHash := fun _ => "svelte-xyz", dev := some false, inject_styles := some true } }

/-- The element `tests[2]`, lines 28-39. -/
def devTest : Test :=
  { name := "Dev mode", source := mediaSource,
    options := { cssHash := fun _ => "svelte-xyz", dev := some true, inject_styles := none } }

/-- The element `tests[3]`, lines 40-51. -/
def webkitTest : Test :=
  { name := "@-webkit-media vendor prefix", source := webkitSource,
    options := { cssHash := fun _ => "svelte-xyz", dev := some false, inject_styles := none } }

/-- The element `tests[4]`, lines 52-71. -/
def multiTest : Test :=
  { name := "Multiple media rules with preceding CSS", source := multiSource,
    options := { cssHash := fun _ => "svelte-xyz", dev := some false, inject_styles := none } }

/-- The array `tests`, lines 3-72. -/
def tests : List Test :=
  [basicTest, injectTest, devTest, webkitTest, multiTest]

/-- The text between `<style>` and `</style>` in `mediaSource`. -/
def mediaBlock : String :=
  "\n\t@media only screen and (min-width: 400px) \x7b\n\t\tdiv \x7b\n\t\t\tcolor: red;\n\t\t\x7d\n\t\x7d\n"

/-- The text between `<style>` and `</style>` in `webkitSource`. -/
def webkitBlock : String :=
  "\n\t@-webkit-media only screen and (min-width: 400px) \x7b\n\t\tdiv \x7b\n\t\t\tcolor: red;\n\t\t\x7d\n\t\x7d\n"

/-- The text between `<style>` and `</style>` in `multiSource`. -/
def multiBlock : String :=
  "\n\tdiv \x7b\n\t\tcolor: blue;\n\t\x7d\n\t@media only screen and (min-width: 400px) \x7b\n\t\tdiv \x7b\n\t\t\tcolor: red;\n\t\t\x7d\n\t\x7d\n\t@media print \x7b\n\t\tdiv \x7b\n\t\t\tcolor: black;\n\t\t\x7d\n\t\x7d\n"

/-- The style block of each fixture, in the order of `tests`. -/
def styleBlocks : List String :=
  [mediaBlock, mediaBlock, mediaBlock, webkitBlock, multiBlock]

/-- Line 77, `result.css ? result.css.code : ''`.  A missing field and the
empty string are falsy; a non-empty string is truthy and has no `code`
property, so the expression is `undefined` (`none`). -/
def cssOf : CssValue → Option String
  | .absent => some ""
  | .text css => if css.data.isEmpty then some "" else none
  | .pair code _ => some code

/-- The `if / else if / else` chain of lines 84-90 on the string `css`. -/
def check (css : String) : Verdict :=
  if includes css "@mediaonly" || includes css "@-webkit-mediaonly" then .bug
  else if includes css "@media only" || includes css "@-webkit-media only" then .preserved
  else .notFound

/-- The `try` block after `compile` returned, lines 77-90. -/
def body (test : Test) (result : CompileResult) : List Event :=
  match cssOf result.css with
  | some css =>
      [.log ("\n=== Test: " ++ test.name ++ " ==="), .logOptions "Options:" test.options,
       .log ("CSS: " ++ css), .verdict (check css)]
  | none =>
      [.log ("\n=== Test: " ++ test.name ++ " ==="), .logOptions "Options:" test.options,
       .log "CSS: undefined", .failure (.typeError "css.includes")]

/-- One turn of the loop, lines 75-93: the catch clause prints the message
and the loop goes on. -/
def runTest (compile : Compile) (test : Test) : List Event :=
  match compile test.source test.options with
  | .error e => [.failure e]
  | .ok result => body test result

/-- The loop `for (const test of tests)` over any array: the console after
the turns so far is the state. -/
def runLoop (compile : Compile) (ts : List Test) : List Event :=
  ts.foldl (fun console test => console ++ runTest compile test) []

/-- The whole script. -/
def run (compile : Compile) : List Event :=
  runLoop compile tests

end Comprehensive

/-! ## Sample compiler outputs -/

/-- A compiler that answers every call with the same `{code, map}` pair. -/
def pairCompiler (code : String) : Compile :=
  fun _ _ => .ok { css := .pair code none }

/-- A compiler that answers every call with the same plain string. -/
def textCompiler (css : String) : Compile :=
  fun _ _ => .ok { css := .text css }

/-- A compiler whose result has no `css` field. -/
def absentCompiler : Compile :=
  fun _ _ => .ok { css := .absent }

/-- A compiler that answers with the style block of the source it is given,
unchanged, as a `{code, map}` pair. -/
def echoCompiler : Compile :=
  fun source _ =>
    if source = Comprehensive.webkitSource then .ok { css := .pair Comprehensive.webkitBlock none }
    else if source = Comprehensive.multiSource then .ok { css := .pair Comprehensive.multiBlock none }
    else if source = Comprehensive.mediaSource then .ok { css := .pair Comprehensive.mediaBlock none }
    else if source = Basic.source then .ok { css := .pair Basic.styleBlock none }
    else .ok { css := .absent }

/-- A compiler that throws when asked for `inject_styles` and otherwise
answers like `echoCompiler`. -/
def failingCompiler : Compile :=
  fun source options =>
    if options.inject_styles = some true then .error (.thrown "inject_styles is not supported")
    else echoCompiler source options

/-- Minified output for the single-rule fixtures: the space after `@media` is
kept, the one after `min-width:` is gone. -/
def minifiedCss : String :=
  "@media only screen and (min-width:400px)\x7bdiv.svelte-xyz\x7bcolor:red\x7d\x7d"

/-- Output for the fifth fixture in which only the `@media print` rule lost
its space. -/
def collapsedPrintCss : String :=
  "div.svelte-xyz\x7bcolor:blue\x7d@media only screen and (min-width: 400px)\x7bdiv.svelte-xyz\x7bcolor:red\x7d\x7d@mediaprint\x7bdiv.svelte-xyz\x7bcolor:black\x7d\x7d"

/-- Output with both the collapsed and the intact spelling. -/
def mixedCss : String :=
  "@mediaonly screen\x7b\x7d @media only screen\x7b\x7d"

/-! ## Substring search: the search loop finds exactly the infixes -/

theorem includesChars_iff (s pat : List Char) :
    includesChars s pat = true ↔ pat <:+: s := by
  induction s with
  | nil =>
      cases pat <;> simp [includesChars, List.isPrefixOf]
  | cons c cs ih =>
      simp only [includesChars, Bool.or_eq_true, ih, List.infix_cons_iff,
        List.isPrefixOf_iff_prefix]

theorem includes_iff (s pat : String) :
    includes s pat = true ↔ pat.data <:+: s.data :=
  includesChars_iff _ _

theorem includes_iff_occurs (s pat : String) :
    includes s pat = true ↔ Occurs pat s := by
  rw [includes_iff]
  constructor
  · rintro ⟨a, b, h⟩
    refine ⟨⟨a⟩, ⟨b⟩, ?_⟩
    apply String.ext
    simp [String.data_append, h]
  · rintro ⟨a, b, h⟩
    refine ⟨a.data, b.data, ?_⟩
    simp [h, String.data_append]

theorem includes_eq_false_iff (s pat : String) :
    includes s pat = false ↔ ¬ Occurs pat s := by
  rw [← includes_iff_occurs]; simp

/-! ## The three `if` chains, read as specifications -/

theorem basic_check_bug_iff (css : String) :
    Basic.check css = .bug ↔ Occurs "@mediaonly" css := by
  rw [← includes_iff_occurs]
  unfold Basic.check
  by_cases h1 : includes css "@mediaonly" = true
  · simp [h1]
  · by_cases h2 : includes css "@media only" = true <;> simp [h1, h2]

theorem basic_check_preserved_iff (css : String) :
    Basic.check css = .preserved ↔
      ¬ Occurs "@mediaonly" css ∧ Occurs "@media only" css := by
  rw [← includes_iff_occurs, ← includes_iff_occurs]
  unfold Basic.check
  by_cases h1 : includes css "@mediaonly" = true
  · simp [h1]
  · by_cases h2 : includes css "@media only" = true <;> simp [h1, h2]

theorem basic_check_notFound_iff (css : String) :
    Basic.check css = .notFound ↔
      ¬ Occurs "@mediaonly" css ∧ ¬ Occurs "@media only" css := by
  rw [← includes_iff_occurs, ← includes_iff_occurs]
  unfold Basic.check
  by_cases h1 : includes css "@mediaonly" = true
  · simp [h1]
  · by_cases h2 : includes css "@media only" = true <;> simp [h1, h2]

theorem assembler_check_eq_basic (css : String) :
    Assembler.check css = Basic.check css := rfl

theorem comprehensive_check_bug_iff (css : String) :
    Comprehensive.check css = .bug ↔
      Occurs "@mediaonly" css ∨ Occurs "@-webkit-mediaonly" css := by
  rw [← includes_iff_occurs, ← includes_iff_occurs]
  unfold Comprehensive.check
  cases includes css "@mediaonly" <;> cases includes css "@-webkit-mediaonly" <;>
    cases includes css "@media only" <;> cases includes css "@-webkit-media only" <;> simp

theorem comprehensive_check_preserved_iff (css : String) :
    Comprehensive.check css = .preserved ↔
      ¬ (Occurs "@mediaonly" css ∨ Occurs "@-webkit-mediaonly" css) ∧
        (Occurs "@media only" css ∨ Occurs "@-webkit-media only" css) := by
  rw [← includes_iff_occurs, ← includes_iff_occurs, ← includes_iff_occurs,
    ← includes_iff_occurs]
  unfold Comprehensive.check
  cases includes css "@mediaonly" <;> cases includes css "@-webkit-mediaonly" <;>
    cases includes css "@media only" <;> cases includes css "@-webkit-media only" <;> simp

theorem comprehensive_check_notFound_iff (css : String) :
    Comprehensive.check css = .notFound ↔
      ¬ (Occurs "@mediaonly" css ∨ Occurs "@-webkit-mediaonly" css) ∧
        ¬ (Occurs "@media only" css ∨ Occurs "@-webkit-media only" css) := by
  rw [← includes_iff_occurs, ← includes_iff_occurs, ← includes_iff_occurs,
    ← includes_iff_occurs]
  unfold Comprehensive.check
  cases includes css "@mediaonly" <;> cases includes css "@-webkit-mediaonly" <;>
    cases includes css "@media only" <;> cases includes css "@-webkit-media only" <;> simp

/-! ## What one run prints -/

theorem basic_run_pair (compile : Compile) (code : String) (map : Option String)
    (h : compile Basic.source Basic.options = .ok ⟨.pair code map⟩) :
    outcomes (Basic.run compile) = [.verdict (Basic.check code)] := by
  simp [Basic.run, h, Basic.body, outcomes]

theorem assembler_run_text (compile : Compile) (css : String)
    (h : compile Assembler.source Assembler.options = .ok ⟨.text css⟩) :
    outcomes (Assembler.run compile) = [.verdict (Assembler.check css)] := by
  simp [Assembler.run, h, Assembler.body, outcomes]

theorem comprehensive_turn_css (compile : Compile) (test : Comprehensive.Test)
    (result : CompileResult) (css : String)
    (hres : compile test.source test.options = .ok result)
    (hcss : Comprehensive.cssOf result.css = some css) :
    outcomes (Comprehensive.runTest compile test) = [.verdict (Comprehensive.check css)] := by
  simp [Comprehensive.runTest, hres, Comprehensive.body, hcss, outcomes]

theorem basic_run_preserved (compile : Compile)
    (h : Outcome.verdict .preserved ∈ outcomes (Basic.run compile)) :
    ∃ css map, compile Basic.source Basic.options = .ok ⟨.pair css map⟩ ∧
      Basic.check css = .preserved := by
  unfold Basic.run at h
  cases hc : compile Basic.source Basic.options with
  | error e => simp [hc, outcomes] at h
  | ok result =>
      obtain ⟨v⟩ := result
      cases v with
      | absent => simp [hc, Basic.body, outcomes] at h
      | text t => simp [hc, Basic.body, outcomes] at h
      | pair code map =>
          refine ⟨code, map, rfl, ?_⟩
          simp only [hc, Basic.body, outcomes, List.mem_singleton, Outcome.verdict.injEq] at h
          exact h.symm

theorem assembler_run_preserved (compile : Compile)
    (h : Outcome.verdict .preserved ∈ outcomes (Assembler.run compile)) :
    ∃ css, compile Assembler.source Assembler.options = .ok ⟨.text css⟩ ∧
      Assembler.check css = .preserved := by
  unfold Assembler.run at h
  cases hc : compile Assembler.source Assembler.options with
  | error e => simp [hc, outcomes, Assembler.onError] at h
  | ok result =>
      obtain ⟨v⟩ := result
      cases v with
      | absent => simp [hc, Assembler.body, Assembler.onError, outcomes] at h
      | text t =>
          refine ⟨t, rfl, ?_⟩
          simp only [hc, Assembler.body, outcomes, List.mem_singleton,
            Outcome.verdict.injEq] at h
          exact h.symm
      | pair code map => simp [hc, Assembler.body, Assembler.onError, outcomes] at h

theorem comprehensive_turn_preserved (compile : Compile) (test : Comprehensive.Test)
    (h : Outcome.verdict .preserved ∈ outcomes (Comprehensive.runTest compile test)) :
    ∃ result css, compile test.source test.options = .ok result ∧
      Comprehensive.cssOf result.css = some css ∧ Comprehensive.check css = .preserved := by
  unfold Comprehensive.runTest at h
  cases hc : compile test.source test.options with
  | error e => simp [hc, outcomes] at h
  | ok result =>
      cases hcss : Comprehensive.cssOf result.css with
      | none => simp [hc, Comprehensive.body, hcss, outcomes] at h
      | some css =>
          refine ⟨result, css, rfl, hcss, ?_⟩
          simp only [hc, Comprehensive.body, hcss, outcomes, List.mem_singleton,
            Outcome.verdict.injEq] at h
          exact h.symm

/-! ## Patterns that start with `@` in a string with a single `@` -/

theorem at_infix_append_left (q pre l : List Char) (hpre : '@' ∉ pre) :
    ('@' :: q) <:+: pre ++ l ↔ ('@' :: q) <:+: l := by
  induction pre with
  | nil => simp
  | cons a pre ih =>
      have ha : '@' ≠ a := fun h => hpre (h ▸ List.mem_cons_self _ _)
      have hp : '@' ∉ pre := fun h => hpre (List.mem_cons_of_mem _ h)
      rw [List.cons_append, List.infix_cons_iff, ih hp, List.cons_prefix_cons]
      constructor
      · rintro (⟨h, _⟩ | h)
        · exact absurd h ha
        · exact h
      · exact Or.inr

theorem at_infix_cons (q rest : List Char) (h : '@' ∉ rest) :
    ('@' :: q) <:+: '@' :: rest ↔ q <+: rest := by
  rw [List.infix_cons_iff, List.cons_prefix_cons]
  constructor
  · rintro (⟨_, hq⟩ | hin)
    · exact hq
    · exact absurd (hin.subset (List.mem_cons_self _ _)) h
  · intro hq
    exact Or.inl ⟨rfl, hq⟩

theorem includes_at_single (before tail after pat : String) (q r : List Char)
    (hpat : pat.data = '@' :: q) (htail : tail.data = '@' :: r)
    (hb : '@' ∉ before.data) (hr : '@' ∉ r) (ha : '@' ∉ after.data) :
    includes (before ++ tail ++ after) pat = true ↔ q <+: r ++ after.data := by
  rw [includes_iff, hpat, String.data_append, String.data_append, htail, List.append_assoc,
    at_infix_append_left _ _ _ hb, List.cons_append, at_infix_cons]
  intro h
  rcases List.mem_append.mp h with h | h
  · exact hr h
  · exact ha h

theorem webkit_only_includes (before after : String)
    (hb : '@' ∉ before.data) (ha : '@' ∉ after.data) :
    includes (before ++ "@-webkit-media only" ++ after) "@mediaonly" = false ∧
    includes (before ++ "@-webkit-media only" ++ after) "@-webkit-mediaonly" = false ∧
    includes (before ++ "@-webkit-media only" ++ after) "@media only" = false ∧
    includes (before ++ "@-webkit-media only" ++ after) "@-webkit-media only" = true := by
  have hr : '@' ∉ "-webkit-media only".data := by decide
  refine ⟨?_, ?_, ?_, ?_⟩
  · rw [← Bool.not_eq_true, includes_at_single before _ after _ "mediaonly".data
      "-webkit-media only".data rfl rfl hb hr ha]
    simp
  · rw [← Bool.not_eq_true, includes_at_single before _ after _ "-webkit-mediaonly".data
      "-webkit-media only".data rfl rfl hb hr ha]
    simp
  · rw [← Bool.not_eq_true, includes_at_single before _ after _ "media only".data
      "-webkit-media only".data rfl rfl hb hr ha]
    simp
  · exact (includes_iff_occurs _ _).mpr ⟨before, after, rfl⟩

/-! ## The loop of the comprehensive script -/

theorem outcomes_append (xs ys : List Event) :
    outcomes (xs ++ ys) = outcomes xs ++ outcomes ys := by
  induction xs with
  | nil => rfl
  | cons x xs ih => cases x <;> simp [outcomes, ih]

theorem foldl_console (compile : Compile) (ts : List Comprehensive.Test) (console : List Event) :
    ts.foldl (fun console test => console ++ Comprehensive.runTest compile test) console =
      console ++ ts.foldl (fun console test => console ++ Comprehensive.runTest compile test) [] := by
  induction ts generalizing console with
  | nil => simp
  | cons t ts ih =>
      simp only [List.foldl_cons, List.nil_append]
      rw [ih (console ++ Comprehensive.runTest compile t), ih (Comprehensive.runTest compile t),
        List.append_assoc]

theorem runLoop_nil (compile : Compile) : Comprehensive.runLoop compile [] = [] := rfl

theorem runLoop_cons (compile : Compile) (t : Comprehensive.Test) (ts : List Comprehensive.Test) :
    Comprehensive.runLoop compile (t :: ts) =
      Comprehensive.runTest compile t ++ Comprehensive.runLoop compile ts := by
  unfold Comprehensive.runLoop
  rw [List.foldl_cons, List.nil_append, foldl_console]

theorem comprehensive_turn_one (compile : Compile) (test : Comprehensive.Test) :
    ∃ o, outcomes (Comprehensive.runTest compile test) = [o] := by
  unfold Comprehensive.runTest
  cases compile test.source test.options with
  | error e => exact ⟨.failure e, rfl⟩
  | ok result =>
      cases hcss : Comprehensive.cssOf result.css with
      | none => exact ⟨.failure (.typeError "css.includes"), by simp [Comprehensive.body, hcss, outcomes]⟩
      | some css => exact ⟨.verdict (Comprehensive.check css), by simp [Comprehensive.body, hcss, outcomes]⟩

theorem comprehensive_turn_congr (compile compile2 : Compile) (test : Comprehensive.Test)
    (h : compile2 test.source test.options = compile test.source test.options) :
    Comprehensive.runTest compile2 test = Comprehensive.runTest compile test := by
  unfold Comprehensive.runTest
  rw [h]

theorem runLoop_outcome_at (compile : Compile) (ts : List Comprehensive.Test) (j : Nat) :
    (outcomes (Comprehensive.runLoop compile ts))[j]? =
      (ts[j]?).bind (fun t => (outcomes (Comprehensive.runTest compile t)).head?) := by
  induction ts generalizing j with
  | nil => simp [runLoop_nil, outcomes]
  | cons t ts ih =>
      obtain ⟨o, ho⟩ := comprehensive_turn_one compile t
      rw [runLoop_cons, outcomes_append, ho]
      cases j with
      | zero => simp [ho]
      | succ j => simpa using ih j

theorem runLoop_outcomes_length (compile : Compile) (ts : List Comprehensive.Test) :
    (outcomes (Comprehensive.runLoop compile ts)).length = ts.length := by
  induction ts with
  | nil => rfl
  | cons t ts ih =>
      obtain ⟨o, ho⟩ := comprehensive_turn_one compile t
      rw [runLoop_cons, outcomes_append, ho]
      simp [ih]

theorem runLoop_last (compile : Compile) (ts : List Comprehensive.Test) (t : Comprehensive.Test) :
    Comprehensive.runTest compile t <:+ Comprehensive.runLoop compile (ts ++ [t]) := by
  induction ts with
  | nil =>
      rw [List.nil_append, runLoop_cons, runLoop_nil, List.append_nil]
  | cons u ts ih =>
      rw [List.cons_append, runLoop_cons]
      exact ih.trans (List.suffix_append _ _)

/-! ## The claims -/

/-- C3: in `test-media-query.js` and `test-media-query-assembler.js` the check
prints exactly one verdict for the generated CSS: the bug verdict exactly when
the string contains `@mediaonly`, the whitespace-preserved verdict exactly when
it does not and contains `@media only`, the remaining verdict otherwise; a
string containing both patterns gets the bug verdict. -/
theorem single_pattern_verdict (compileB compileA : Compile) (css : String)
    (map : Option String)
    (hB : compileB Basic.source Basic.options = .ok ⟨.pair css map⟩)
    (hA : compileA Assembler.source Assembler.options = .ok ⟨.text css⟩) :
    ∃ vB vA : Verdict,
      outcomes (Basic.run compileB) = [.verdict vB] ∧
      outcomes (Assembler.run compileA) = [.verdict vA] ∧
      (vB = .bug ↔ Occurs "@mediaonly" css) ∧
      (vB = .preserved ↔ ¬ Occurs "@mediaonly" css ∧ Occurs "@media only" css) ∧
      (vB = .notFound ↔ ¬ Occurs "@mediaonly" css ∧ ¬ Occurs "@media only" css) ∧
      (vA = .bug ↔ Occurs "@mediaonly" css) ∧
      (vA = .preserved ↔ ¬ Occurs "@mediaonly" css ∧ Occurs "@media only" css) ∧
      (vA = .notFound ↔ ¬ Occurs "@mediaonly" css ∧ ¬ Occurs "@media only" css) ∧
      (Occurs "@mediaonly" css → Occurs "@media only" css → vB = .bug ∧ vA = .bug) := by
  refine ⟨Basic.check css, Assembler.check css, basic_run_pair _ _ _ hB,
    assembler_run_text _ _ hA, basic_check_bug_iff css, basic_check_preserved_iff css,
    basic_check_notFound_iff css, ?_, ?_, ?_, ?_⟩
  · rw [assembler_check_eq_basic]; exact basic_check_bug_iff css
  · rw [assembler_check_eq_basic]; exact basic_check_preserved_iff css
  · rw [assembler_check_eq_basic]; exact basic_check_notFound_iff css
  · intro h _
    exact ⟨(basic_check_bug_iff css).mpr h,
      (assembler_check_eq_basic css).trans ((basic_check_bug_iff css).mpr h)⟩

/-- Witness for C3: a string holding both `@mediaonly` and `@media only`,
returned in the shape each script reads. -/
theorem single_pattern_verdict_witness :
    pairCompiler mixedCss Basic.source Basic.options = .ok ⟨.pair mixedCss none⟩ ∧
    textCompiler mixedCss Assembler.source Assembler.options = .ok ⟨.text mixedCss⟩ ∧
    ∃ vB vA : Verdict,
      outcomes (Basic.run (pairCompiler mixedCss)) = [.verdict vB] ∧
      outcomes (Assembler.run (textCompiler mixedCss)) = [.verdict vA] ∧
      (vB = .bug ↔ Occurs "@mediaonly" mixedCss) ∧
      (vB = .preserved ↔ ¬ Occurs "@mediaonly" mixedCss ∧ Occurs "@media only" mixedCss) ∧
      (vB = .notFound ↔ ¬ Occurs "@mediaonly" mixedCss ∧ ¬ Occurs "@media only" mixedCss) ∧
      (vA = .bug ↔ Occurs "@mediaonly" mixedCss) ∧
      (vA = .preserved ↔ ¬ Occurs "@mediaonly" mixedCss ∧ Occurs "@media only" mixedCss) ∧
      (vA = .notFound ↔ ¬ Occurs "@mediaonly" mixedCss ∧ ¬ Occurs "@media only" mixedCss) ∧
      (Occurs "@mediaonly" mixedCss → Occurs "@media only" mixedCss →
        vB = .bug ∧ vA = .bug) :=
  ⟨rfl, rfl, single_pattern_verdict (pairCompiler mixedCss) (textCompiler mixedCss)
    mixedCss none rfl rfl⟩

/-- C4, as stated, fails for a compile result whose `css` is a non-empty plain
string: line 77 reads its missing `code` property, `css` is `undefined`, the
call `css.includes` throws and the turn prints the error line, no verdict. -/
theorem plain_string_no_verdict :
    outcomes (Comprehensive.runTest (textCompiler Comprehensive.mediaBlock)
      Comprehensive.basicTest) = [.failure (.typeError "css.includes")] := by
  decide

/-- C4, amended: in `test-media-query-comprehensive.js`, for every compile
result whose `css` is a `{code, map}` pair, is absent or is the empty string,
with `css` taken as the `code` of the pair and as the empty string otherwise,
the turn prints exactly one verdict: BUG DETECTED exactly when `css` contains
`@mediaonly` or `@-webkit-mediaonly`, Whitespace preserved exactly when it
contains neither and contains `@media only` or `@-webkit-media only`, No @media
found otherwise.  When `result.css` is absent, or the empty string, the verdict
is No @media found; a non-empty plain string gives the error line instead of a
verdict. -/
theorem comprehensive_verdict (compile : Compile) (test : Comprehensive.Test)
    (result : CompileResult)
    (hres : compile test.source test.options = .ok result) :
    (∀ code map, result.css = .pair code map →
      ∃ v : Verdict,
        outcomes (Comprehensive.runTest compile test) = [.verdict v] ∧
        (v = .bug ↔ Occurs "@mediaonly" code ∨ Occurs "@-webkit-mediaonly" code) ∧
        (v = .preserved ↔
          ¬ (Occurs "@mediaonly" code ∨ Occurs "@-webkit-mediaonly" code) ∧
            (Occurs "@media only" code ∨ Occurs "@-webkit-media only" code)) ∧
        (v = .notFound ↔
          ¬ (Occurs "@mediaonly" code ∨ Occurs "@-webkit-mediaonly" code) ∧
            ¬ (Occurs "@media only" code ∨ Occurs "@-webkit-media only" code))) ∧
    (result.css = .absent →
      outcomes (Comprehensive.runTest compile test) = [.verdict .notFound]) ∧
    (result.css = .text "" →
      outcomes (Comprehensive.runTest compile test) = [.verdict .notFound]) ∧
    (∀ css, result.css = .text css → css ≠ "" →
      outcomes (Comprehensive.runTest compile test) = [.failure (.typeError "css.includes")]) := by
  refine ⟨?_, ?_, ?_, ?_⟩
  · intro code map h
    refine ⟨Comprehensive.check code,
      comprehensive_turn_css compile test result code hres (by rw [h]; rfl),
      comprehensive_check_bug_iff code, comprehensive_check_preserved_iff code,
      comprehensive_check_notFound_iff code⟩
  · intro h
    rw [comprehensive_turn_css compile test result "" hres (by rw [h]; rfl)]
    decide
  · intro h
    rw [comprehensive_turn_css compile test result "" hres (by rw [h]; rfl)]
    decide
  · intro css h hne
    have hdata : css.data ≠ [] := fun hd => hne (String.ext hd)
    have hcss : Comprehensive.cssOf result.css = none := by
      rw [h]
      cases hd : css.data with
      | nil => exact absurd hd hdata
      | cons c cs => simp [Comprehensive.cssOf, hd]
    simp [Comprehensive.runTest, hres, Comprehensive.body, hcss, outcomes]

/-- Witness for the amended C4: the fourth fixture answered with its own style
block as a pair, a result without `css`, and a non-empty plain string. -/
theorem comprehensive_verdict_witness :
    (∃ v : Verdict,
      outcomes (Comprehensive.runTest echoCompiler Comprehensive.webkitTest) = [.verdict v] ∧
      (v = .bug ↔ Occurs "@mediaonly" Comprehensive.webkitBlock ∨
        Occurs "@-webkit-mediaonly" Comprehensive.webkitBlock) ∧
      (v = .preserved ↔
        ¬ (Occurs "@mediaonly" Comprehensive.webkitBlock ∨
            Occurs "@-webkit-mediaonly" Comprehensive.webkitBlock) ∧
          (Occurs "@media only" Comprehensive.webkitBlock ∨
            Occurs "@-webkit-media only" Comprehensive.webkitBlock)) ∧
      (v = .notFound ↔
        ¬ (Occurs "@mediaonly" Comprehensive.webkitBlock ∨
            Occurs "@-webkit-mediaonly" Comprehensive.webkitBlock) ∧
          ¬ (Occurs "@media only" Comprehensive.webkitBlock ∨
            Occurs "@-webkit-media only" Comprehensive.webkitBlock))) ∧
    outcomes (Comprehensive.runTest absentCompiler Comprehensive.injectTest)
      = [.verdict .notFound] ∧
    outcomes (Comprehensive.runTest (textCompiler "") Comprehensive.basicTest)
      = [.verdict .notFound] ∧
    outcomes (Comprehensive.runTest (textCompiler Comprehensive.mediaBlock)
      Comprehensive.basicTest) = [.failure (.typeError "css.includes")] :=
  ⟨(comprehensive_verdict echoCompiler Comprehensive.webkitTest
      ⟨.pair Comprehensive.webkitBlock none⟩ rfl).1 Comprehensive.webkitBlock none rfl,
   (comprehensive_verdict absentCompiler Comprehensive.injectTest ⟨.absent⟩ rfl).2.1 rfl,
   (comprehensive_verdict (textCompiler "") Comprehensive.basicTest ⟨.text ""⟩ rfl).2.2.1 rfl,
   (comprehensive_verdict (textCompiler Comprehensive.mediaBlock) Comprehensive.basicTest
      ⟨.text Comprehensive.mediaBlock⟩ rfl).2.2.2 Comprehensive.mediaBlock rfl (by decide)⟩

/-- C5, as stated, fails: on minified output every script prints the
whitespace-preserved verdict although the full prelude
`@media only screen and (min-width: 400px)` (or its `@-webkit-media` form) is
nowhere in the string. -/
theorem preserved_without_full_prelude :
    outcomes (Basic.run (pairCompiler minifiedCss)) = [.verdict .preserved] ∧
    outcomes (Assembler.run (textCompiler minifiedCss)) = [.verdict .preserved] ∧
    outcomes (Comprehensive.runTest (pairCompiler minifiedCss) Comprehensive.basicTest)
      = [.verdict .preserved] ∧
    ¬ Occurs "@media only screen and (min-width: 400px)" minifiedCss ∧
    ¬ Occurs "@-webkit-media only screen and (min-width: 400px)" minifiedCss :=
  ⟨by decide, by decide, by decide,
    (includes_eq_false_iff _ _).mp (by decide), (includes_eq_false_iff _ _).mp (by decide)⟩

/-- C5, amended: whenever a script prints the whitespace-preserved verdict,
the CSS string it read contains `@media only` (in the comprehensive script:
`@media only` or `@-webkit-media only`) and contains no `@mediaonly` (in the
comprehensive script: nor `@-webkit-mediaonly`). -/
theorem preserved_verdict_meaning (compileB compileA compileC : Compile)
    (test : Comprehensive.Test) :
    (Outcome.verdict .preserved ∈ outcomes (Basic.run compileB) →
      ∃ css map, compileB Basic.source Basic.options = .ok ⟨.pair css map⟩ ∧
        Occurs "@media only" css ∧ ¬ Occurs "@mediaonly" css) ∧
    (Outcome.verdict .preserved ∈ outcomes (Assembler.run compileA) →
      ∃ css, compileA Assembler.source Assembler.options = .ok ⟨.text css⟩ ∧
        Occurs "@media only" css ∧ ¬ Occurs "@mediaonly" css) ∧
    (Outcome.verdict .preserved ∈ outcomes (Comprehensive.runTest compileC test) →
      ∃ result css, compileC test.source test.options = .ok result ∧
        Comprehensive.cssOf result.css = some css ∧
        (Occurs "@media only" css ∨ Occurs "@-webkit-media only" css) ∧
        ¬ Occurs "@mediaonly" css ∧ ¬ Occurs "@-webkit-mediaonly" css) := by
  refine ⟨?_, ?_, ?_⟩
  · intro h
    obtain ⟨css, map, hc, hv⟩ := basic_run_preserved compileB h
    have := (basic_check_preserved_iff css).mp hv
    exact ⟨css, map, hc, this.2, this.1⟩
  · intro h
    obtain ⟨css, hc, hv⟩ := assembler_run_preserved compileA h
    rw [assembler_check_eq_basic] at hv
    have := (basic_check_preserved_iff css).mp hv
    exact ⟨css, hc, this.2, this.1⟩
  · intro h
    obtain ⟨result, css, hc, hcss, hv⟩ := comprehensive_turn_preserved compileC test h
    have := (comprehensive_check_preserved_iff css).mp hv
    exact ⟨result, css, hc, hcss, this.2, fun h1 => this.1 (Or.inl h1),
      fun h2 => this.1 (Or.inr h2)⟩

/-- Witness for the amended C5: the minified output, on which all three
scripts print the whitespace-preserved verdict. -/
theorem preserved_verdict_meaning_witness :
    (∃ css map, pairCompiler minifiedCss Basic.source Basic.options = .ok ⟨.pair css map⟩ ∧
        Occurs "@media only" css ∧ ¬ Occurs "@mediaonly" css) ∧
    (∃ css, textCompiler minifiedCss Assembler.source Assembler.options = .ok ⟨.text css⟩ ∧
        Occurs "@media only" css ∧ ¬ Occurs "@mediaonly" css) ∧
    (∃ result css,
        pairCompiler minifiedCss Comprehensive.basicTest.source Comprehensive.basicTest.options
          = .ok result ∧
        Comprehensive.cssOf result.css = some css ∧
        (Occurs "@media only" css ∨ Occurs "@-webkit-media only" css) ∧
        ¬ Occurs "@mediaonly" css ∧ ¬ Occurs "@-webkit-mediaonly" css) :=
  ⟨(preserved_verdict_meaning (pairCompiler minifiedCss) (textCompiler minifiedCss)
      (pairCompiler minifiedCss) Comprehensive.basicTest).1 (by decide),
   (preserved_verdict_meaning (pairCompiler minifiedCss) (textCompiler minifiedCss)
      (pairCompiler minifiedCss) Comprehensive.basicTest).2.1 (by decide),
   (preserved_verdict_meaning (pairCompiler minifiedCss) (textCompiler minifiedCss)
      (pairCompiler minifiedCss) Comprehensive.basicTest).2.2 (by decide)⟩

/-- C6, as stated, fails: in output for the fifth fixture where `@media print`
collapsed to `@mediaprint` and the other rule kept its space, the comprehensive
script prints Whitespace preserved, not BUG DETECTED; and on `@mediaprint`
alone it prints No @media found. -/
theorem collapsed_print_not_detected :
    Occurs "@mediaprint" collapsedPrintCss ∧
    outcomes (Comprehensive.runTest (pairCompiler collapsedPrintCss) Comprehensive.multiTest)
      = [.verdict .preserved] ∧
    outcomes (Comprehensive.runTest (pairCompiler "@mediaprint\x7b\x7d") Comprehensive.multiTest)
      = [.verdict .notFound] :=
  ⟨(includes_iff_occurs _ _).mp (by decide), by decide, by decide⟩

/-- C6, amended: when the generated CSS contains `@mediaonly` or
`@-webkit-mediaonly`, that is `@media` or `@-webkit-media` immediately followed
by `only`, the comprehensive script prints BUG DETECTED and not Whitespace
preserved. -/
theorem collapsed_only_detected (compile : Compile) (test : Comprehensive.Test)
    (result : CompileResult) (css : String)
    (hres : compile test.source test.options = .ok result)
    (hcss : Comprehensive.cssOf result.css = some css)
    (h : Occurs "@mediaonly" css ∨ Occurs "@-webkit-mediaonly" css) :
    outcomes (Comprehensive.runTest compile test) = [.verdict .bug] ∧
    Outcome.verdict .preserved ∉ outcomes (Comprehensive.runTest compile test) := by
  have hrun := comprehensive_turn_css compile test result css hres hcss
  rw [(comprehensive_check_bug_iff css).mpr h] at hrun
  rw [hrun]
  exact ⟨rfl, by decide⟩

/-- Witness for the amended C6: output holding `@mediaonly`. -/
theorem collapsed_only_detected_witness :
    (Occurs "@mediaonly" mixedCss ∨ Occurs "@-webkit-mediaonly" mixedCss) ∧
    outcomes (Comprehensive.runTest (pairCompiler mixedCss) Comprehensive.multiTest)
      = [.verdict .bug] ∧
    Outcome.verdict .preserved ∉
      outcomes (Comprehensive.runTest (pairCompiler mixedCss) Comprehensive.multiTest) :=
  ⟨Or.inl ((includes_iff_occurs _ _).mp (by decide)),
   collapsed_only_detected (pairCompiler mixedCss) Comprehensive.multiTest
     ⟨.pair mixedCss none⟩ mixedCss rfl rfl
     (Or.inl ((includes_iff_occurs _ _).mp (by decide)))⟩

/-- C7: for each fixture of the three scripts, when the generated CSS is the
text of the fixture's style block unchanged, the script prints the
whitespace-preserved verdict; every style block contains `@media only` or
`@-webkit-media only` and none contains `@mediaonly` or `@-webkit-mediaonly`. -/
theorem fixtures_unchanged_preserved (compileB compileA compileC : Compile)
    (mapB : Option String)
    (hB : compileB Basic.source Basic.options = .ok ⟨.pair Basic.styleBlock mapB⟩)
    (hA : compileA Assembler.source Assembler.options = .ok ⟨.text Assembler.styleBlock⟩)
    (hC : List.Forall₂
      (fun test block => ∃ map, compileC test.source test.options = .ok ⟨.pair block map⟩)
      Comprehensive.tests Comprehensive.styleBlocks) :
    Basic.source = "\n<div>hello</div>\n\n<style>" ++ Basic.styleBlock ++ "</style>\n" ∧
    Assembler.source = "\n<div>hello</div>\n\n<style>" ++ Assembler.styleBlock ++ "</style>\n" ∧
    List.Forall₂
      (fun test block => test.source = "<div>hello</div>\n<style>" ++ block ++ "</style>")
      Comprehensive.tests Comprehensive.styleBlocks ∧
    outcomes (Basic.run compileB) = [.verdict .preserved] ∧
    outcomes (Assembler.run compileA) = [.verdict .preserved] ∧
    outcomes (Comprehensive.run compileC) =
      [.verdict .preserved, .verdict .preserved, .verdict .preserved, .verdict .preserved,
       .verdict .preserved] ∧
    (∀ block ∈ Basic.styleBlock :: Assembler.styleBlock :: Comprehensive.styleBlocks,
      (Occurs "@media only" block ∨ Occurs "@-webkit-media only" block) ∧
        ¬ Occurs "@mediaonly" block ∧ ¬ Occurs "@-webkit-mediaonly" block) := by
  refine ⟨by decide, by decide, ?_, ?_, ?_, ?_, ?_⟩
  · simp only [Comprehensive.tests, Comprehensive.styleBlocks, List.forall₂_cons,
      List.forall₂_nil_right_iff, and_true]
    exact ⟨by decide, by decide, by decide, by decide, by decide⟩
  · rw [basic_run_pair compileB _ mapB hB]; decide
  · rw [assembler_run_text compileA _ hA]; decide
  · simp only [Comprehensive.tests, Comprehensive.styleBlocks, List.forall₂_cons,
      List.forall₂_nil_right_iff, and_true] at hC
    obtain ⟨⟨m0, h0⟩, ⟨m1, h1⟩, ⟨m2, h2⟩, ⟨m3, h3⟩, ⟨m4, h4⟩⟩ := hC
    simp only [Comprehensive.run, Comprehensive.tests, runLoop_cons, runLoop_nil,
      outcomes_append, List.append_nil,
      comprehensive_turn_css compileC _ _ _ h0 rfl,
      comprehensive_turn_css compileC _ _ _ h1 rfl,
      comprehensive_turn_css compileC _ _ _ h2 rfl,
      comprehensive_turn_css compileC _ _ _ h3 rfl,
      comprehensive_turn_css compileC _ _ _ h4 rfl]
    decide
  · intro block hblock
    simp only [Comprehensive.styleBlocks, List.mem_cons, List.mem_singleton, List.mem_nil_iff,
      or_false] at hblock
    simp only [← includes_eq_false_iff, ← includes_iff_occurs]
    rcases hblock with h | h | h | h | h | h | h <;> subst h <;> decide

/-- Witness for C7: compilers that return each style block unchanged. -/
theorem fixtures_unchanged_preserved_witness :
    echoCompiler Basic.source Basic.options = .ok ⟨.pair Basic.styleBlock none⟩ ∧
    textCompiler Assembler.styleBlock Assembler.source Assembler.options
      = .ok ⟨.text Assembler.styleBlock⟩ ∧
    outcomes (Basic.run echoCompiler) = [.verdict .preserved] ∧
    outcomes (Assembler.run (textCompiler Assembler.styleBlock)) = [.verdict .preserved] ∧
    outcomes (Comprehensive.run echoCompiler) =
      [.verdict .preserved, .verdict .preserved, .verdict .preserved, .verdict .preserved,
       .verdict .preserved] :=
  have h := fixtures_unchanged_preserved echoCompiler (textCompiler Assembler.styleBlock)
    echoCompiler none rfl rfl
    (.cons ⟨none, rfl⟩ (.cons ⟨none, rfl⟩ (.cons ⟨none, rfl⟩ (.cons ⟨none, rfl⟩
      (.cons ⟨none, rfl⟩ .nil)))))
  ⟨rfl, rfl, h.2.2.2.1, h.2.2.2.2.1, h.2.2.2.2.2.1⟩

/-- C8: given the same `{code, map}` result, `test-media-query-comprehensive.js`
and `test-media-query.js` print the same verdict whenever the CSS contains
neither `@-webkit-mediaonly` nor `@-webkit-media only`; when the only `@` of
the CSS is the one that starts `@-webkit-media only`, the comprehensive script
prints Whitespace preserved and `test-media-query.js` prints its third
verdict. -/
theorem comprehensive_vs_basic (compileC compileB : Compile) (test : Comprehensive.Test)
    (css : String) (map : Option String)
    (hC : compileC test.source test.options = .ok ⟨.pair css map⟩)
    (hB : compileB Basic.source Basic.options = .ok ⟨.pair css map⟩) :
    (¬ Occurs "@-webkit-mediaonly" css → ¬ Occurs "@-webkit-media only" css →
      ∃ v : Verdict, outcomes (Comprehensive.runTest compileC test) = [.verdict v] ∧
        outcomes (Basic.run compileB) = [.verdict v]) ∧
    (∀ before after : String, css = before ++ "@-webkit-media only" ++ after →
      '@' ∉ before.data → '@' ∉ after.data →
      outcomes (Comprehensive.runTest compileC test) = [.verdict .preserved] ∧
        outcomes (Basic.run compileB) = [.verdict .notFound]) := by
  have hrunC := comprehensive_turn_css compileC test _ css hC rfl
  have hrunB := basic_run_pair compileB css map hB
  refine ⟨?_, ?_⟩
  · intro h1 h2
    refine ⟨Basic.check css, ?_, hrunB⟩
    rw [hrunC]
    rw [← includes_eq_false_iff] at h1 h2
    simp [Comprehensive.check, Basic.check, h1, h2]
  · intro before after hcss hb ha
    obtain ⟨w1, w2, w3, w4⟩ := webkit_only_includes before after hb ha
    rw [hrunC, hrunB, hcss]
    simp [Comprehensive.check, Basic.check, w1, w2, w3, w4]

/-- Witness for C8: the first fixture's style block, which has no webkit
pattern, and the fourth fixture's style block, whose only `@` starts
`@-webkit-media only`, each handed to both scripts. -/
theorem comprehensive_vs_basic_witness :
    (∃ v : Verdict,
      outcomes (Comprehensive.runTest (pairCompiler Comprehensive.mediaBlock)
        Comprehensive.basicTest) = [.verdict v] ∧
      outcomes (Basic.run (pairCompiler Comprehensive.mediaBlock)) = [.verdict v]) ∧
    outcomes (Comprehensive.runTest (pairCompiler Comprehensive.webkitBlock)
      Comprehensive.webkitTest) = [.verdict .preserved] ∧
    outcomes (Basic.run (pairCompiler Comprehensive.webkitBlock)) = [.verdict .notFound] :=
  ⟨(comprehensive_vs_basic (pairCompiler Comprehensive.mediaBlock)
      (pairCompiler Comprehensive.mediaBlock) Comprehensive.basicTest
      Comprehensive.mediaBlock none rfl rfl).1
      ((includes_eq_false_iff _ _).mp (by decide)) ((includes_eq_false_iff _ _).mp (by decide)),
   (comprehensive_vs_basic (pairCompiler Comprehensive.webkitBlock)
      (pairCompiler Comprehensive.webkitBlock) Comprehensive.webkitTest
      Comprehensive.webkitBlock none rfl rfl).2 "\n\t"
      " screen and (min-width: 400px) \x7b\n\t\tdiv \x7b\n\t\t\tcolor: red;\n\t\t\x7d\n\t\x7d\n"
      (by decide) (by decide) (by decide)⟩

/-- C9, as stated, fails: when the compiler returns a `{code, map}` pair,
`test-media-query.js` prints a verdict while `test-media-query-assembler.js`
throws on `result.css.includes` and prints the error line; when it returns a
plain string it is the other way round. -/
theorem shapes_not_interchangeable :
    outcomes (Basic.run (pairCompiler Basic.styleBlock)) = [.verdict .preserved] ∧
    outcomes (Assembler.run (pairCompiler Basic.styleBlock))
      = [.failure (.typeError "result.css.includes")] ∧
    outcomes (Assembler.run (textCompiler Basic.styleBlock)) = [.verdict .preserved] ∧
    outcomes (Basic.run (textCompiler Basic.styleBlock))
      = [.failure (.typeError "result.css.code.includes")] :=
  ⟨by decide, by decide, by decide, by decide⟩

/-- C9, amended: when `test-media-query-assembler.js` receives the CSS as a
plain string and `test-media-query.js` receives the same text as the `code` of
a `{code, map}` pair, both print the same verdict; a script that receives the
other shape throws a `TypeError` and prints its error line, no verdict. -/
theorem same_text_same_verdict (compileA compileB : Compile) (css : String)
    (map : Option String)
    (hA : compileA Assembler.source Assembler.options = .ok ⟨.text css⟩)
    (hB : compileB Basic.source Basic.options = .ok ⟨.pair css map⟩) :
    (∃ v : Verdict, outcomes (Assembler.run compileA) = [.verdict v] ∧
      outcomes (Basic.run compileB) = [.verdict v]) ∧
    (∀ compile : Compile, compile Assembler.source Assembler.options = .ok ⟨.pair css map⟩ →
      outcomes (Assembler.run compile) = [.failure (.typeError "result.css.includes")]) ∧
    (∀ compile : Compile, compile Basic.source Basic.options = .ok ⟨.text css⟩ →
      outcomes (Basic.run compile) = [.failure (.typeError "result.css.code.includes")]) := by
  refine ⟨⟨Basic.check css, ?_, basic_run_pair compileB css map hB⟩, ?_, ?_⟩
  · rw [assembler_run_text compileA css hA, assembler_check_eq_basic]
  · intro compile h
    simp [Assembler.run, h, Assembler.body, Assembler.onError, outcomes]
  · intro compile h
    simp [Basic.run, h, Basic.body, outcomes]

/-- Witness for the amended C9: the style block of `test-media-query.js`,
returned to each script in the shape it reads. -/
theorem same_text_same_verdict_witness :
    textCompiler Basic.styleBlock Assembler.source Assembler.options
      = .ok ⟨.text Basic.styleBlock⟩ ∧
    pairCompiler Basic.styleBlock Basic.source Basic.options
      = .ok ⟨.pair Basic.styleBlock none⟩ ∧
    ∃ v : Verdict, outcomes (Assembler.run (textCompiler Basic.styleBlock)) = [.verdict v] ∧
      outcomes (Basic.run (pairCompiler Basic.styleBlock)) = [.verdict v] :=
  ⟨rfl, rfl, (same_text_same_verdict (textCompiler Basic.styleBlock)
    (pairCompiler Basic.styleBlock) Basic.styleBlock none rfl rfl).1⟩

/-- C10: `test-media-query-comprehensive.js` takes its five fixtures in array
order and prints exactly one outcome, a verdict or an error line, for each;
when `compile` throws for one fixture, that fixture's outcome is the error
line, every other fixture's outcome is what it is without the throw, and the
turn of the last fixture still closes the run. -/
theorem loop_isolates_errors (compile compile2 : Compile) (i : Nat)
    (t : Comprehensive.Test) (e : JsError)
    (hi : Comprehensive.tests[i]? = some t)
    (hthrow : compile2 t.source t.options = .error e)
    (hsame : ∀ j u, j ≠ i → Comprehensive.tests[j]? = some u →
      compile2 u.source u.options = compile u.source u.options) :
    (∀ c : Compile, ∃ o0 o1 o2 o3 o4 : Outcome,
      outcomes (Comprehensive.run c) = [o0, o1, o2, o3, o4] ∧
      outcomes (Comprehensive.runTest c Comprehensive.basicTest) = [o0] ∧
      outcomes (Comprehensive.runTest c Comprehensive.injectTest) = [o1] ∧
      outcomes (Comprehensive.runTest c Comprehensive.devTest) = [o2] ∧
      outcomes (Comprehensive.runTest c Comprehensive.webkitTest) = [o3] ∧
      outcomes (Comprehensive.runTest c Comprehensive.multiTest) = [o4]) ∧
    (outcomes (Comprehensive.run compile2))[i]? = some (.failure e) ∧
    (∀ j, j ≠ i →
      (outcomes (Comprehensive.run compile2))[j]? = (outcomes (Comprehensive.run compile))[j]?) ∧
    (outcomes (Comprehensive.run compile2)).length = 5 ∧
    Comprehensive.runTest compile2 Comprehensive.multiTest <:+ Comprehensive.run compile2 := by
  refine ⟨?_, ?_, ?_, ?_, ?_⟩
  · intro c
    obtain ⟨o0, h0⟩ := comprehensive_turn_one c Comprehensive.basicTest
    obtain ⟨o1, h1⟩ := comprehensive_turn_one c Comprehensive.injectTest
    obtain ⟨o2, h2⟩ := comprehensive_turn_one c Comprehensive.devTest
    obtain ⟨o3, h3⟩ := comprehensive_turn_one c Comprehensive.webkitTest
    obtain ⟨o4, h4⟩ := comprehensive_turn_one c Comprehensive.multiTest
    refine ⟨o0, o1, o2, o3, o4, ?_, h0, h1, h2, h3, h4⟩
    simp only [Comprehensive.run, Comprehensive.tests, runLoop_cons, runLoop_nil,
      outcomes_append, h0, h1, h2, h3, h4, outcomes, List.append_nil, List.cons_append,
      List.nil_append]
  · unfold Comprehensive.run
    rw [runLoop_outcome_at, hi]
    simp [Comprehensive.runTest, hthrow, outcomes]
  · intro j hj
    unfold Comprehensive.run
    rw [runLoop_outcome_at, runLoop_outcome_at]
    cases hu : Comprehensive.tests[j]? with
    | none => rfl
    | some u =>
        simp only [Option.some_bind]
        rw [comprehensive_turn_congr compile compile2 u (hsame j u hj hu)]
  · exact runLoop_outcomes_length compile2 Comprehensive.tests
  · exact runLoop_last compile2
      [Comprehensive.basicTest, Comprehensive.injectTest, Comprehensive.devTest,
        Comprehensive.webkitTest] Comprehensive.multiTest

/-- Witness for C10: a compiler that throws on the second fixture, the one
with `inject_styles`, and otherwise answers like `echoCompiler`. -/
theorem loop_isolates_errors_witness :
    Comprehensive.tests[1]? = some Comprehensive.injectTest ∧
    failingCompiler Comprehensive.injectTest.source Comprehensive.injectTest.options
      = .error (.thrown "inject_styles is not supported") ∧
    (outcomes (Comprehensive.run failingCompiler))[1]?
      = some (.failure (.thrown "inject_styles is not supported")) ∧
    (∀ j, j ≠ 1 →
      (outcomes (Comprehensive.run failingCompiler))[j]?
        = (outcomes (Comprehensive.run echoCompiler))[j]?) ∧
    (outcomes (Comprehensive.run failingCompiler)).length = 5 :=
  have h := loop_isolates_errors echoCompiler failingCompiler 1 Comprehensive.injectTest
    (.thrown "inject_styles is not supported") rfl rfl
    (by
      intro j u hj hu
      match j, hj, hu with
      | 0, _, hu => cases hu; rfl
      | 1, hj, _ => exact absurd rfl hj
      | 2, _, hu => cases hu; rfl
      | 3, _, hu => cases hu; rfl
      | 4, _, hu => cases hu; rfl
      | n + 5, _, hu => cases hu)
  ⟨rfl, rfl, h.2.1, h.2.2.1, h.2.2.2.1⟩

end MediaQuery
